import Mathlib

/-!
Verification of the FreeKeel annotation core (src/app.js, two concatenated
variants, and the eraser variant in src/unnamed/part_000).

The embedding is a direct shallow translation of the JavaScript:

* coordinates are rationals (the browser works with doubles, but every
  expression the claims mention is an exact field expression, so ℚ keeps the
  algebra faithful);
* the duck-typed records pushed into the module-level `annotations` array
  become the inductive `Annot`; optional record fields used through the
  JavaScript pattern `a.size || 18` become `Option ℚ` read through `jsOr`;
* `structuredClone` in `pushHistory` is modelled by the value semantics of
  Lean lists: a snapshot stored in `history` shares no mutable state with the
  live list, which is exactly what `structuredClone` buys the JS code;
* the canvas 2d context and pdf-lib are modelled by emitting explicit command
  lists (`DrawCmd` for the overlay, `PdfOp` for the exporter);
* pdf-lib's `PDFDocument.getPage` asserts its index range and throws on an
  out-of-range page index, so `savePdf` aborts there in every variant; the
  model returns `Except.error` in that case.  Variant 1 and part_000 guard
  the subsequent overlay-canvas lookup (`if (!canvas) continue`), a live
  guard modelled as a skip, while their `if (!page) continue` guard sits
  after the throwing call and is dead code; the second variant (app.js lines
  466-510) reads `pages[a.pageIndex].anno` unguarded as well, a TypeError
  when the entry is missing.
-/

namespace FreeKeel

/-- A point with an x and a y coordinate, used both for the overlay-pixel
space of the canvases and for the physical page space of the exporter. -/
structure Point where
  x : ℚ
  y : ℚ
  deriving DecidableEq

/-- The records the handlers push into the module-level `annotations` array.
Variant 1 (app.js lines 162-189) stores `size: 18` on text and `width: 2` on
strokes with no color field; variant 2 (app.js lines 400-418) stores neither
size, width nor color; part_000 stores size, width and a color string.  The
optional fields model exactly which keys each record carries. -/
inductive Annot
  | text (pageIndex : Nat) (x y : ℚ) (content : String) (size : Option ℚ)
      (color : Option String)
  | stroke (pageIndex : Nat) (points : List Point) (width : Option ℚ)
      (color : Option String)
  deriving DecidableEq

/-- The `a.pageIndex` field read by `redraw` and `savePdf`. -/
def Annot.pageIndex : Annot → Nat
  | .text pi _ _ _ _ _ => pi
  | .stroke pi _ _ _ => pi

/-- JavaScript `v || d` on a numeric record field: the key may be absent, and
the value `0` is falsy, so both fall back to the default. -/
def jsOr (v : Option ℚ) (d : ℚ) : ℚ :=
  match v with
  | none => d
  | some x => if x = 0 then d else x

/-- One page's overlay canvas dimensions (`anno.width`, `anno.height`),
fixed when `renderPdf` builds the page list. -/
structure PageView where
  pixelWidth : ℚ
  pixelHeight : ℚ
  deriving DecidableEq

/-- A page's physical size as reported by `page.getSize()` in `savePdf`. -/
structure PhysSize where
  width : ℚ
  height : ℚ
  deriving DecidableEq

/-- The module-level mutable state of app.js: `pdfBytes`, `pages`,
`annotations` and `history`.  (`mode` is passed to the handlers that
consult it instead of being stored.) -/
structure Session where
  pdfBytes : Option (List Nat)
  pages : List PageView
  annotations : List Annot
  history : List (List Annot)
  deriving DecidableEq

/-- The body of `pushHistory` acting on the `history` array:
`history.push(structuredClone(annotations)); if (history.length > 50)
history.shift();` — append at the top, then evict the oldest entry when the
bound of 50 is exceeded. -/
def histPush (h : List (List Annot)) (s : List Annot) : List (List Annot) :=
  if 50 < (h ++ [s]).length then (h ++ [s]).drop 1 else h ++ [s]

/-- `pushHistory()` (identical in all three variants, app.js lines 235-238,
455-458, part_000 lines 233-236). -/
def pushHistory (st : Session) : Session :=
  { st with history := histPush st.history st.annotations }

/-- `undo()` (identical in all variants, app.js lines 240-244):
`if (!history.length) return; annotations = history.pop();` — a pop from the
top of the stack replacing the live annotation list; no-op when empty. -/
def undo (st : Session) : Session :=
  match st.history.getLast? with
  | none => st
  | some s => { st with annotations := s, history := st.history.dropLast }

/-- `annotations.push(a)`. -/
def appendAnnot (st : Session) (a : Annot) : Session :=
  { st with annotations := st.annotations ++ [a] }

/-- `stroke.points.push(p)` through the live `stroke` handle.  After a
mousedown the handle aliases the record most recently pushed into
`annotations`, so during a drag gesture the mutation lands on the last
annotation; if the last annotation is not a stroke the handle situation
cannot arise and nothing happens. -/
def appendPointToLast (st : Session) (p : Point) : Session :=
  match st.annotations.getLast? with
  | some (Annot.stroke pi pts w c) =>
      { st with annotations :=
          st.annotations.dropLast ++ [Annot.stroke pi (pts ++ [p]) w c] }
  | _ => st

/-- Variant 1 click handler body in text mode (app.js lines 162-176): prompt
first; a cancelled (`none`) or empty prompt returns before anything is
pushed; otherwise snapshot history and append the text record with
`size: 18` and no color key. -/
def textClick1 (st : Session) (pageIndex : Nat) (x y : ℚ)
    (textOpt : Option String) : Session :=
  match textOpt with
  | none => st
  | some t =>
      if t = "" then st
      else appendAnnot (pushHistory st)
        (Annot.text pageIndex x y t (some 18) none)

/-- Variant 1 mousedown handler body in draw mode (app.js lines 178-189):
snapshot history, push a stroke record with an empty point list, then push
the initial point through the live handle. -/
def mousedown1 (st : Session) (pageIndex : Nat) (p : Point) : Session :=
  appendPointToLast
    (appendAnnot (pushHistory st) (Annot.stroke pageIndex [] (some 2) none)) p

/-- Variant 1 mousemove handler body while drawing (app.js lines 191-199):
push the sampled point through the live stroke handle. -/
def mousemove1 (st : Session) (p : Point) : Session :=
  appendPointToLast st p

/-- Variant 2 click handler body in text mode (app.js lines 400-410): the
history snapshot is pushed BEFORE the prompt, so a cancelled or empty prompt
returns with the snapshot already on the stack. -/
def textClick2 (st : Session) (pageIndex : Nat) (x y : ℚ)
    (textOpt : Option String) : Session :=
  let st1 := pushHistory st
  match textOpt with
  | none => st1
  | some t =>
      if t = "" then st1
      else appendAnnot st1 (Annot.text pageIndex x y t none none)

/-- Variant 2 mousedown handler body in draw mode (app.js lines 412-418):
snapshot history and push a stroke record with `points: []`; unlike the
other two variants no initial point is pushed. -/
def mousedown2 (st : Session) (pageIndex : Nat) : Session :=
  appendAnnot (pushHistory st) (Annot.stroke pageIndex [] none none)

/-- The part_000 mousedown handler body (part_000 lines 183-191): active in
draw and eraser modes; the stroke carries `parseInt(lineWidthInput.value) ||
2` (the parse result is `none` when parseInt yields NaN) and a color that is
white `#FFFFFF` in eraser mode and the picker value otherwise; the initial
point is pushed through the live handle. -/
def mousedownP0 (st : Session) (pageIndex : Nat) (p : Point)
    (lineWidthIn : Option ℚ) (mode : String) (drawColorIn : String) : Session :=
  if mode = "draw" ∨ mode = "eraser" then
    appendPointToLast
      (appendAnnot (pushHistory st)
        (Annot.stroke pageIndex [] (some (jsOr lineWidthIn 2))
          (some (if mode = "eraser" then "#FFFFFF" else drawColorIn)))) p
  else st

/-- Common core of the variant-1 handlers once their guards pass: take a
history snapshot, then append one annotation. -/
def appendEdit (st : Session) (a : Annot) : Session :=
  appendAnnot (pushHistory st) a

/-- The canvas-2d calls `redraw` makes, in order. -/
inductive DrawCmd
  | clear (pageIndex : Nat)
  | fillText (pageIndex : Nat) (content : String) (x y size : ℚ)
      (fillStyle : String)
  | polyline (pageIndex : Nat) (points : List Point) (lineWidth : ℚ)
      (strokeStyle : String)
  deriving DecidableEq

/-- What variant 1's `redraw` (app.js lines 208-232) draws for one
annotation whose page resolves: text in fixed yellow at `a.size || 18`,
strokes as one polyline in fixed lime at `a.width || 2`. -/
def renderCmd : Annot → DrawCmd
  | .text pi x y t size _ => .fillText pi t x y (jsOr size 18) "yellow"
  | .stroke pi pts w _ => .polyline pi pts (jsOr w 2) "lime"

/-- The per-annotation step of `redraw`: `const p = pages[a.pageIndex];
if (!p) continue;` — a dangling page index yields nothing. -/
def toDrawCmd (numPages : Nat) (a : Annot) : Option DrawCmd :=
  if a.pageIndex < numPages then some (renderCmd a) else none

/-- Variant 1's `redraw`: clear every page's overlay, then draw each
annotation in original append order, skipping dangling page indices. -/
def redraw (numPages : Nat) (annos : List Annot) : List DrawCmd :=
  (List.range numPages).map DrawCmd.clear ++ annos.filterMap (toDrawCmd numPages)

/-- `sx = width / canvas.width` in `savePdf`. -/
def scaleX (phys : PhysSize) (pv : PageView) : ℚ :=
  phys.width / pv.pixelWidth

/-- `sy = height / canvas.height` in `savePdf`. -/
def scaleY (phys : PhysSize) (pv : PageView) : ℚ :=
  phys.height / pv.pixelHeight

/-- The stroke-endpoint transform of `savePdf`:
`{ x: p.x * sx, y: height - p.y * sy }`. -/
def toPhysicalStroke (phys : PhysSize) (pv : PageView) (p : Point) : Point :=
  ⟨p.x * scaleX phys pv, phys.height - p.y * scaleY phys pv⟩

/-- The text y-coordinate of `savePdf`: `height - (a.y * sy) - size`. -/
def textExportY (phys : PhysSize) (pv : PageView) (y s : ℚ) : ℚ :=
  phys.height - y * scaleY phys pv - s

/-- `PDFLib.rgb(r, g, b)`. -/
def rgb (r g b : ℚ) : ℚ × ℚ × ℚ :=
  (r, g, b)

/-- The pdf-lib calls `savePdf` makes on the loaded document. -/
inductive PdfOp
  | drawText (pageIndex : Nat) (content : String) (x y size : ℚ)
      (color : ℚ × ℚ × ℚ)
  | drawLine (pageIndex : Nat) (p1 p2 : Point) (thickness : ℚ)
      (color : ℚ × ℚ × ℚ)
  deriving DecidableEq

def PdfOp.isText : PdfOp → Bool
  | .drawText .. => true
  | _ => false

def PdfOp.isLine : PdfOp → Bool
  | .drawLine .. => true
  | _ => false

def PdfOp.color : PdfOp → ℚ × ℚ × ℚ
  | .drawText _ _ _ _ _ c => c
  | .drawLine _ _ _ _ c => c

/-- The consecutive pairs walked by `for (let i = 1; i < a.points.length;
i++)`: an N-point stroke yields N-1 segments, 0- and 1-point strokes none. -/
def consecPairs : List Point → List (Point × Point)
  | [] => []
  | [_] => []
  | p :: q :: rest => (p, q) :: consecPairs (q :: rest)

/-- The per-annotation body of variant 1's `savePdf` (app.js lines 256-291,
identical in part_000 lines 252-285).  `pdfDoc.getPage(a.pageIndex)` asserts
its range and THROWS on an out-of-range index, so the `if (!page) continue;`
guard right after it is dead code and a dangling page index aborts the
export.  The overlay-canvas lookup `pages[a.pageIndex]?.anno` is covered by
the live `if (!canvas) continue;` guard, a genuine skip.  A resolvable
annotation emits a yellow `drawText` at the transformed anchor for text, or
a green `drawLine` per consecutive point pair for a stroke. -/
def annoOps (doc : List PhysSize) (pages : List PageView) (a : Annot) :
    Except String (List PdfOp) :=
  match doc[a.pageIndex]? with
  | none => .error "getPage: page index out of range"
  | some phys =>
      match pages[a.pageIndex]? with
      | none => .ok []
      | some pv =>
          match a with
          | .text pi x y t size _ =>
              .ok [ .drawText pi t (x * scaleX phys pv)
                  (textExportY phys pv y (jsOr size 18)) (jsOr size 18)
                  (rgb 1 1 0) ]
          | .stroke pi pts w _ =>
              .ok ((consecPairs pts).map fun pq =>
                .drawLine pi (toPhysicalStroke phys pv pq.1)
                  (toPhysicalStroke phys pv pq.2) (jsOr w 2) (rgb 0 1 0))

/-- Variant 1's `savePdf` loop over `annotations`: collects the pdf-lib
draw calls in order; the first thrown getPage aborts the export. -/
def savePdf1 (doc : List PhysSize) (pages : List PageView) :
    List Annot → Except String (List PdfOp)
  | [] => .ok []
  | a :: rest =>
      match annoOps doc pages a with
      | .error e => .error e
      | .ok ops =>
          match savePdf1 doc pages rest with
          | .error e => .error e
          | .ok more => .ok (ops ++ more)

/-- The per-annotation body of variant 2's `savePdf` (app.js lines 471-500):
`pdfDoc.getPage(a.pageIndex)` and `pages[a.pageIndex].anno` are read WITHOUT
guards, so a page index that does not resolve throws (pdf-lib getPage
asserts its range; the pages read is a TypeError on undefined); sizes and
thickness are the literals 18 and 2. -/
def annoOps2 (doc : List PhysSize) (pages : List PageView) (a : Annot) :
    Except String (List PdfOp) :=
  match doc[a.pageIndex]? with
  | none => .error "getPage: page index out of range"
  | some phys =>
      match pages[a.pageIndex]? with
      | none => .error "TypeError: pages entry is undefined"
      | some pv =>
          match a with
          | .text pi x y t _ _ =>
              .ok [ .drawText pi t (x * scaleX phys pv)
                  (textExportY phys pv y 18) 18 (rgb 1 1 0) ]
          | .stroke pi pts _ _ =>
              .ok ((consecPairs pts).map fun pq =>
                .drawLine pi (toPhysicalStroke phys pv pq.1)
                  (toPhysicalStroke phys pv pq.2) 2 (rgb 0 1 0))

/-- Variant 2's `savePdf` loop: the first thrown lookup aborts the export. -/
def savePdf2 (doc : List PhysSize) (pages : List PageView) :
    List Annot → Except String (List PdfOp)
  | [] => .ok []
  | a :: rest =>
      match annoOps2 doc pages a with
      | .error e => .error e
      | .ok ops =>
          match savePdf2 doc pages rest with
          | .error e => .error e
          | .ok more => .ok (ops ++ more)

/-- `renderPdf(bytes)` effect on the session state: `viewer.innerHTML = "";
pages = [];` happens first, inside the try; the parse outcome of the
external rasterizer is `some pageViews` on success and `none` when the bytes
are malformed or the password prompt is cancelled (the catch block only
alerts, leaving the already-cleared page list in place). -/
def renderPdf (st : Session) (loadResult : Option (List PageView)) : Session :=
  match loadResult with
  | some pvs => { st with pages := pvs }
  | none => { st with pages := [] }

/-- `loadFile(file)` (app.js lines 84-89): set `pdfBytes`, clear
`annotations` and `history` unconditionally, and only then attempt
`renderPdf`. -/
def loadFile (st : Session) (bytes : List Nat)
    (loadResult : Option (List PageView)) : Session :=
  renderPdf { st with pdfBytes := some bytes, annotations := [], history := [] }
    loadResult

/-! Helper lemmas about the bounded history stack. -/

/-- The suffix of the last `n` elements of a list. -/
def lastN (n : Nat) (xs : List α) : List α :=
  xs.drop (xs.length - n)

theorem lastN_of_le {n : Nat} {xs : List α} (h : xs.length ≤ n) :
    lastN n xs = xs := by
  simp only [lastN, Nat.sub_eq_zero_of_le h, List.drop_zero]

theorem lastN_length (n : Nat) (xs : List α) :
    (lastN n xs).length = min n xs.length := by
  simp only [lastN, List.length_drop]
  omega

theorem lastN_append_left (n : Nat) (xs ys : List α) :
    lastN n (lastN n xs ++ ys) = lastN n (xs ++ ys) := by
  by_cases hx : xs.length ≤ n
  · rw [lastN_of_le hx]
  · have hk : xs.length - n ≤ xs.length := Nat.sub_le _ _
    have h1 : lastN n xs = xs.drop (xs.length - n) := rfl
    rw [h1, ← List.drop_append_of_le_length hk]
    simp only [lastN, List.length_drop, List.drop_drop, List.length_append]
    congr 1
    omega

theorem histPush_eq_lastN (h : List (List Annot)) (s : List Annot)
    (hs : h.length ≤ 50) :
    histPush h s = lastN 50 (h ++ [s]) := by
  have hlen : (h ++ [s]).length = h.length + 1 := by simp
  by_cases hc : 50 < (h ++ [s]).length
  · simp only [histPush, if_pos hc, lastN]
    have h1 : (h ++ [s]).length - 50 = 1 := by omega
    rw [h1]
  · simp only [histPush, if_neg hc, lastN]
    have h0 : (h ++ [s]).length - 50 = 0 := by omega
    rw [h0, List.drop_zero]

theorem histPush_length_le (h : List (List Annot)) (s : List Annot)
    (hs : h.length ≤ 50) :
    (histPush h s).length ≤ 50 := by
  rw [histPush_eq_lastN h s hs]
  have := lastN_length 50 (h ++ [s])
  omega

theorem histPush_length (h : List (List Annot)) (s : List Annot)
    (hs : h.length ≤ 50) :
    (histPush h s).length = min (h.length + 1) 50 := by
  rw [histPush_eq_lastN h s hs, lastN_length]
  simp only [List.length_append, List.length_singleton]
  omega

theorem histPush_getLast (h : List (List Annot)) (s : List Annot) :
    (histPush h s).getLast? = some s := by
  simp only [histPush]
  by_cases hc : 50 < (h ++ [s]).length
  · rw [if_pos hc]
    match h with
    | [] => simp at hc
    | x :: xs =>
        simp only [List.cons_append, List.drop_succ_cons, List.drop_zero]
        exact List.getLast?_concat xs
  · rw [if_neg hc]
    exact List.getLast?_concat h

theorem foldl_histPush (ss : List (List Annot)) :
    ∀ h : List (List Annot), h.length ≤ 50 →
      List.foldl histPush h ss = lastN 50 (h ++ ss) := by
  induction ss with
  | nil =>
      intro h hh
      simp only [List.foldl_nil, List.append_nil]
      exact (lastN_of_le hh).symm
  | cons s rest ih =>
      intro h hh
      rw [List.foldl_cons, ih (histPush h s) (histPush_length_le h s hh),
        histPush_eq_lastN h s hh, lastN_append_left]
      congr 1
      simp

/-! Helper lemmas about the session-level operations. -/

theorem undo_annotations (st : Session) (s : List Annot)
    (h : st.history.getLast? = some s) :
    (undo st).annotations = s := by
  unfold undo
  rw [h]

theorem undo_of_empty_history (st : Session) (h : st.history = []) :
    undo st = st := by
  unfold undo
  rw [h]
  rfl

theorem appendPointToLast_history (st : Session) (p : Point) :
    (appendPointToLast st p).history = st.history := by
  unfold appendPointToLast
  split <;> rfl

theorem foldl_appendPointToLast_history (ps : List Point) :
    ∀ st : Session, (List.foldl appendPointToLast st ps).history = st.history := by
  induction ps with
  | nil => intro st; rfl
  | cons p rest ih =>
      intro st
      rw [List.foldl_cons, ih, appendPointToLast_history]

theorem pushHistory_history (st : Session) :
    (pushHistory st).history = histPush st.history st.annotations := rfl

theorem appendAnnot_history (st : Session) (a : Annot) :
    (appendAnnot st a).history = st.history := rfl

theorem appendEdit_history (st : Session) (a : Annot) :
    (appendEdit st a).history = histPush st.history st.annotations := rfl

theorem appendEdit_annotations (st : Session) (a : Annot) :
    (appendEdit st a).annotations = st.annotations ++ [a] := rfl

theorem appendPoint_after_begin (st : Session) (pi : Nat) (p : Point)
    (w : Option ℚ) (c : Option String) :
    appendPointToLast (appendAnnot st (Annot.stroke pi [] w c)) p
      = appendAnnot st (Annot.stroke pi [p] w c) := by
  unfold appendPointToLast
  simp only [appendAnnot, List.getLast?_concat, List.dropLast_concat,
    List.nil_append]

theorem mousedown1_eq_appendEdit (st : Session) (pi : Nat) (p : Point) :
    mousedown1 st pi p = appendEdit st (Annot.stroke pi [p] (some 2) none) := by
  unfold mousedown1 appendEdit
  rw [appendPoint_after_begin]

/-- A concrete non-empty session used by the witnesses: one loaded page of
overlay size 900 by 1400, one existing annotation, empty history. -/
def sessEx : Session :=
  ⟨some [7], [⟨900, 1400⟩], [Annot.text 0 5 5 "note" (some 18) none], []⟩

/-- Claim C1: for every annotation sequence S and every single mutation
(appending a text annotation, or beginning a stroke and appending any number
of points to it), pushing a snapshot of S onto the history, performing the
mutation, and then calling undo leaves the annotation store structurally
equal to S; in particular the points appended to the live stroke after the
snapshot was taken do not appear in the restored state.  The variant-1 text
handler and the full draw gesture (mousedown plus any number of mousemove
samples) both snapshot before mutating, and undo pops that snapshot back. -/
theorem C1_undo_exact_inverse (st : Session) (pi : Nat) (x y : ℚ) (t : String)
    (ht : t ≠ "") (p0 : Point) (pts : List Point) :
    (undo (textClick1 st pi x y (some t))).annotations = st.annotations ∧
    (undo (List.foldl appendPointToLast (mousedown1 st pi p0) pts)).annotations
      = st.annotations := by
  constructor
  · apply undo_annotations
    simp only [textClick1, if_neg ht, appendAnnot_history, pushHistory_history]
    exact histPush_getLast _ _
  · apply undo_annotations
    rw [foldl_appendPointToLast_history, mousedown1_eq_appendEdit,
      appendEdit_history]
    exact histPush_getLast _ _

theorem C1_undo_exact_inverse_witness :
    ("hi" : String) ≠ "" ∧
    (undo (textClick1 sessEx 0 1 2 (some "hi"))).annotations = sessEx.annotations ∧
    (undo (List.foldl appendPointToLast (mousedown1 sessEx 0 ⟨3, 4⟩)
      [⟨5, 6⟩, ⟨7, 8⟩])).annotations = sessEx.annotations :=
  ⟨by decide,
    (C1_undo_exact_inverse sessEx 0 1 2 "hi" (by decide) ⟨3, 4⟩ [⟨5, 6⟩, ⟨7, 8⟩]).1,
    (C1_undo_exact_inverse sessEx 0 1 2 "hi" (by decide) ⟨3, 4⟩ [⟨5, 6⟩, ⟨7, 8⟩]).2⟩

/-- Claim C2: for every stroke point (px, py) on a page with overlay-pixel
size (pw, ph) and physical size (W, H) the exported physical coordinates are
(px * W / pw, H - py * H / ph); with pixel size (900, 1400) and physical
size (612, 792), pixel (0, 0) maps to physical (0, 792) and pixel
(900, 1400) maps to physical (612, 0); and variant 1's savePdf emits
exactly these transformed endpoints for a two-point stroke. -/
theorem C2_stroke_pixel_to_physical (phys : PhysSize) (pv : PageView)
    (p q : Point) (w : Option ℚ) (c : Option String) :
    toPhysicalStroke phys pv p
      = ⟨p.x * phys.width / pv.pixelWidth,
         phys.height - p.y * phys.height / pv.pixelHeight⟩ ∧
    toPhysicalStroke ⟨612, 792⟩ ⟨900, 1400⟩ ⟨0, 0⟩ = ⟨0, 792⟩ ∧
    toPhysicalStroke ⟨612, 792⟩ ⟨900, 1400⟩ ⟨900, 1400⟩ = ⟨612, 0⟩ ∧
    savePdf1 [phys] [pv] [Annot.stroke 0 [p, q] w c]
      = Except.ok [ PdfOp.drawLine 0 (toPhysicalStroke phys pv p)
            (toPhysicalStroke phys pv q) (jsOr w 2) (rgb 0 1 0) ] := by
  refine ⟨?_, by norm_num [toPhysicalStroke, scaleX, scaleY, Point.mk.injEq],
    by norm_num [toPhysicalStroke, scaleX, scaleY, Point.mk.injEq], ?_⟩
  · simp [toPhysicalStroke, scaleX, scaleY, mul_div_assoc]
  · rfl

/-- Claim C3: for every text annotation with pixel anchor y-coordinate py
and font size s, on a page with pixel height ph and physical height H, the
exported physical y-coordinate is H - py * H / ph - s (font-size offset on
top of the axis flip); concretely, anchor y = 100 with size 18 on pixel
height 1400 and physical height 792 exports at 792 - 100 * 792 / 1400 - 18;
and variant 1's savePdf emits exactly this coordinate for a size-18 text
annotation. -/
theorem C3_text_export_offset (phys : PhysSize) (pv : PageView)
    (x y : ℚ) (t : String) (c : Option String) :
    (∀ s : ℚ, textExportY phys pv y s
        = phys.height - y * phys.height / pv.pixelHeight - s) ∧
    textExportY ⟨612, 792⟩ ⟨900, 1400⟩ 100 18 = 792 - 100 * 792 / 1400 - 18 ∧
    savePdf1 [phys] [pv] [Annot.text 0 x y t (some 18) c]
      = Except.ok [ PdfOp.drawText 0 t (x * scaleX phys pv)
            (textExportY phys pv y 18) 18 (rgb 1 1 0) ] := by
  refine ⟨?_, by norm_num [textExportY, scaleY], ?_⟩
  · intro s
    simp [textExportY, scaleY, mul_div_assoc]
  · show Except.ok ([ PdfOp.drawText 0 t (x * scaleX phys pv)
        (textExportY phys pv y (jsOr (some 18) 18)) (jsOr (some 18) 18)
        (rgb 1 1 0) ] ++ []) = _
    norm_num [jsOr]

/-- Claim C5 is REFUTED by the code: `loadFile` assigns `annotations = [];
history = [];` before `renderPdf` is even attempted, and `renderPdf` clears
the page list before parsing, so when the load then fails (malformed bytes
or a cancelled password prompt, modelled by the `none` outcome) the previous
session's annotations, history and page views are all gone rather than left
intact.  Evaluated here at a session holding one annotation, one history
entry and one page view. -/
theorem C5_failed_load_clears_previous_session :
    (⟨some [7], [⟨900, 1400⟩], [Annot.text 0 5 5 "note" (some 18) none],
        [[]]⟩ : Session).annotations ≠ [] ∧
    (⟨some [7], [⟨900, 1400⟩], [Annot.text 0 5 5 "note" (some 18) none],
        [[]]⟩ : Session).history ≠ [] ∧
    (⟨some [7], [⟨900, 1400⟩], [Annot.text 0 5 5 "note" (some 18) none],
        [[]]⟩ : Session).pages ≠ [] ∧
    (loadFile ⟨some [7], [⟨900, 1400⟩],
        [Annot.text 0 5 5 "note" (some 18) none], [[]]⟩ [1, 2] none).annotations
      = [] ∧
    (loadFile ⟨some [7], [⟨900, 1400⟩],
        [Annot.text 0 5 5 "note" (some 18) none], [[]]⟩ [1, 2] none).history
      = [] ∧
    (loadFile ⟨some [7], [⟨900, 1400⟩],
        [Annot.text 0 5 5 "note" (some 18) none], [[]]⟩ [1, 2] none).pages
      = [] := by
  refine ⟨?_, ?_, ?_, rfl, rfl, rfl⟩ <;> simp

/-- A session with nothing loaded: empty pages, annotations and history. -/
def stEmpty : Session :=
  ⟨none, [], [], []⟩

/-- The snapshot sequence used by the C6 witness: 51 pairwise distinct
one-annotation snapshots. -/
def ssW : List (List Annot) :=
  (List.range 51).map fun i => [Annot.text i 0 0 "s" none none]

/-- Claim C6: the history stack never exceeds 50 entries; after N > 50
pushes (starting from empty history) the stack holds exactly the 50 most
recent snapshots in order (oldest evicted first from the bottom), so
repeated pop retrieves precisely those 50 and then reports empty; and undo
on an empty history is a no-op on the whole state, annotation store
included. -/
theorem C6_history_capacity_bound (ss : List (List Annot)) (st : Session)
    (hN : 50 < ss.length) (hE : st.history = []) :
    (∀ tt : List (List Annot), (List.foldl histPush [] tt).length ≤ 50) ∧
    List.foldl histPush [] ss = ss.drop (ss.length - 50) ∧
    (List.foldl histPush [] ss).length = 50 ∧
    undo st = st := by
  have hbase : ([] : List (List Annot)).length ≤ 50 := by simp
  refine ⟨?_, ?_, ?_, undo_of_empty_history st hE⟩
  · intro tt
    rw [foldl_histPush tt [] hbase]
    have h := lastN_length 50 ([] ++ tt)
    omega
  · rw [foldl_histPush ss [] hbase]
    simp only [List.nil_append, lastN]
  · rw [foldl_histPush ss [] hbase]
    simp only [List.nil_append]
    have h := lastN_length 50 ss
    omega

theorem C6_history_capacity_bound_witness :
    50 < ssW.length ∧ stEmpty.history = [] ∧
    ((∀ tt : List (List Annot), (List.foldl histPush [] tt).length ≤ 50) ∧
     List.foldl histPush [] ssW = ssW.drop (ssW.length - 50) ∧
     (List.foldl histPush [] ssW).length = 50 ∧
     undo stEmpty = stEmpty) :=
  ⟨by simp [ssW], rfl, C6_history_capacity_bound ssW stEmpty (by simp [ssW]) rfl⟩

/-- Claim C7: repaint clears each page's overlay and then draws the
annotations in original append order (the only z-ordering mechanism), and
the order survives undo: appending A then B and undoing B's append leaves a
repaint that renders only A, and A, B, C always render in that order
whatever mix of stroke and text they are. -/
theorem C7_append_order_preserved (st : Session) (a b c : Annot) (n : Nat)
    (h0 : st.annotations = []) (ha : a.pageIndex < n) (hb : b.pageIndex < n)
    (hc : c.pageIndex < n) :
    redraw n (undo (appendEdit (appendEdit st a) b)).annotations
      = (List.range n).map DrawCmd.clear ++ [renderCmd a] ∧
    redraw n [a, b, c]
      = (List.range n).map DrawCmd.clear
          ++ [renderCmd a, renderCmd b, renderCmd c] := by
  constructor
  · have h1 : (undo (appendEdit (appendEdit st a) b)).annotations
        = st.annotations ++ [a] := by
      apply undo_annotations
      rw [appendEdit_history, histPush_getLast, appendEdit_annotations]
    rw [h1, h0, List.nil_append]
    simp [redraw, toDrawCmd, ha]
  · simp [redraw, toDrawCmd, ha, hb, hc]

theorem C7_append_order_preserved_witness :
    (stEmpty.annotations = [] ∧
     (Annot.text 0 1 2 "A" (some 18) none).pageIndex < 1 ∧
     (Annot.stroke 0 [⟨1, 1⟩, ⟨2, 2⟩] (some 2) none).pageIndex < 1 ∧
     (Annot.text 0 3 4 "C" (some 18) none).pageIndex < 1) ∧
    (redraw 1 (undo (appendEdit (appendEdit stEmpty
        (Annot.text 0 1 2 "A" (some 18) none))
        (Annot.stroke 0 [⟨1, 1⟩, ⟨2, 2⟩] (some 2) none))).annotations
      = (List.range 1).map DrawCmd.clear
          ++ [renderCmd (Annot.text 0 1 2 "A" (some 18) none)] ∧
     redraw 1 [Annot.text 0 1 2 "A" (some 18) none,
        Annot.stroke 0 [⟨1, 1⟩, ⟨2, 2⟩] (some 2) none,
        Annot.text 0 3 4 "C" (some 18) none]
      = (List.range 1).map DrawCmd.clear
          ++ [renderCmd (Annot.text 0 1 2 "A" (some 18) none),
              renderCmd (Annot.stroke 0 [⟨1, 1⟩, ⟨2, 2⟩] (some 2) none),
              renderCmd (Annot.text 0 3 4 "C" (some 18) none)]) :=
  ⟨⟨rfl, by decide, by decide, by decide⟩,
    C7_append_order_preserved stEmpty (Annot.text 0 1 2 "A" (some 18) none)
      (Annot.stroke 0 [⟨1, 1⟩, ⟨2, 2⟩] (some 2) none)
      (Annot.text 0 3 4 "C" (some 18) none) 1 rfl (by decide) (by decide)
      (by decide)⟩

/-! Lemmas for the dangling-page claim. -/

theorem annoOps_dangling (doc : List PhysSize) (pages : List PageView)
    (a : Annot) (hd : doc.length ≤ a.pageIndex) :
    annoOps doc pages a = Except.error "getPage: page index out of range" := by
  unfold annoOps
  rw [List.getElem?_eq_none hd]

theorem annoOps2_dangling (doc : List PhysSize) (pages : List PageView)
    (a : Annot) (hd : doc.length ≤ a.pageIndex) :
    annoOps2 doc pages a = Except.error "getPage: page index out of range" := by
  unfold annoOps2
  rw [List.getElem?_eq_none hd]

/-- A three-page document with US-Letter pages. -/
def doc3 : List PhysSize :=
  [⟨612, 792⟩, ⟨612, 792⟩, ⟨612, 792⟩]

/-- The matching three overlay canvases. -/
def pv3 : List PageView :=
  [⟨900, 1400⟩, ⟨900, 1400⟩, ⟨900, 1400⟩]

/-- A stroke annotation whose page index 5 dangles on a 3-page document. -/
def aDang : Annot :=
  Annot.stroke 5 [⟨1, 1⟩, ⟨2, 2⟩] none none

/-- Claim C4 names the intended behavior, but the code misses it at flatten
time: repaint does skip an annotation with page index 5 on a 3-page document
(here also leaving another annotation's rendering unchanged), yet pdf-lib's
`getPage` asserts its range and throws on the out-of-range index in every
variant, before the `if (!page) continue` guard of variant 1 and part_000
can run — that guard is dead code — so the flatten of all three variants
aborts with an error instead of skipping and continuing. -/
theorem C4_flatten_throws_on_dangling :
    redraw 3 [aDang] = (List.range 3).map DrawCmd.clear ∧
    redraw 3 [Annot.text 0 1 1 "k" (some 18) none, aDang]
      = redraw 3 [Annot.text 0 1 1 "k" (some 18) none] ∧
    savePdf1 doc3 pv3 [aDang]
      = Except.error "getPage: page index out of range" ∧
    savePdf2 doc3 pv3 [aDang]
      = Except.error "getPage: page index out of range" := by
  exact ⟨rfl, rfl, rfl, rfl⟩

/-- Claim C8 as stated is REFUTED: in the second variant the mousedown
handler pushes a stroke whose point list is empty — the initial point is
only added by the first mousemove — while variant 1 does append the initial
point inside the handler. -/
theorem C8_counterexample :
    (mousedown2 stEmpty 0).annotations = [Annot.stroke 0 [] none none] ∧
    (mousedown1 stEmpty 0 ⟨1, 2⟩).annotations
      = [Annot.stroke 0 [⟨1, 2⟩] (some 2) none] := by
  exact ⟨rfl, rfl⟩

/-- Claim C8, amended: when the begin-stroke handler completes, the stroke
appended to the store contains exactly one point (the initial point) in
variant 1 and in part_000 (in part_000 with the chosen width and with the
eraser-dependent color); in the second variant the appended stroke contains
no points at all. -/
theorem C8_amended_begin_stroke (st : Session) (pi : Nat) (p : Point)
    (w : Option ℚ) (m dc : String) (hm : m = "draw" ∨ m = "eraser") :
    (mousedown1 st pi p).annotations.getLast?
      = some (Annot.stroke pi [p] (some 2) none) ∧
    (mousedownP0 st pi p w m dc).annotations.getLast?
      = some (Annot.stroke pi [p] (some (jsOr w 2))
          (some (if m = "eraser" then "#FFFFFF" else dc))) ∧
    (mousedown2 st pi).annotations.getLast?
      = some (Annot.stroke pi [] none none) := by
  refine ⟨?_, ?_, ?_⟩
  · rw [mousedown1_eq_appendEdit, appendEdit_annotations]
    exact List.getLast?_concat _
  · unfold mousedownP0
    rw [if_pos hm, appendPoint_after_begin]
    exact List.getLast?_concat _
  · exact List.getLast?_concat _

theorem C8_amended_begin_stroke_witness :
    (("draw" : String) = "draw" ∨ ("draw" : String) = "eraser") ∧
    ((mousedown1 sessEx 0 ⟨1, 2⟩).annotations.getLast?
        = some (Annot.stroke 0 [⟨1, 2⟩] (some 2) none) ∧
     (mousedownP0 sessEx 0 ⟨1, 2⟩ (some 3) "draw" "#FF0000").annotations.getLast?
        = some (Annot.stroke 0 [⟨1, 2⟩] (some (jsOr (some 3) 2))
            (some (if ("draw" : String) = "eraser" then "#FFFFFF"
              else "#FF0000"))) ∧
     (mousedown2 sessEx 0).annotations.getLast?
        = some (Annot.stroke 0 [] none none)) :=
  ⟨Or.inl rfl,
    C8_amended_begin_stroke sessEx 0 ⟨1, 2⟩ (some 3) "draw" "#FF0000"
      (Or.inl rfl)⟩

/-- Claim C9: in the second variant's text-mode click handler the history
snapshot is pushed before the prompt, so a cancelled or empty prompt adds no
annotation yet leaves a snapshot equal to the current annotation sequence on
the stack; the next undo then installs that structurally equal copy (a
visible no-change undo press) and the dead snapshot occupies one of the 50
history slots. -/
theorem C9_cancelled_prompt_dead_snapshot (st : Session) (pi : Nat) (x y : ℚ)
    (tOpt : Option String) (ht : tOpt = none ∨ tOpt = some "")
    (hcap : st.history.length ≤ 50) :
    (textClick2 st pi x y tOpt).annotations = st.annotations ∧
    (textClick2 st pi x y tOpt).history.getLast? = some st.annotations ∧
    (textClick2 st pi x y tOpt).history.length
      = min (st.history.length + 1) 50 ∧
    (undo (textClick2 st pi x y tOpt)).annotations = st.annotations := by
  have hred : textClick2 st pi x y tOpt = pushHistory st := by
    rcases ht with h | h <;> subst h <;> rfl
  rw [hred]
  refine ⟨rfl, histPush_getLast _ _, ?_, ?_⟩
  · exact histPush_length st.history st.annotations hcap
  · exact undo_annotations _ _ (histPush_getLast _ _)

theorem C9_cancelled_prompt_dead_snapshot_witness :
    ((none : Option String) = none ∨ (none : Option String) = some "") ∧
    sessEx.history.length ≤ 50 ∧
    ((textClick2 sessEx 0 1 2 none).annotations = sessEx.annotations ∧
     (textClick2 sessEx 0 1 2 none).history.getLast? = some sessEx.annotations ∧
     (textClick2 sessEx 0 1 2 none).history.length
        = min (sessEx.history.length + 1) 50 ∧
     (undo (textClick2 sessEx 0 1 2 none)).annotations = sessEx.annotations) :=
  ⟨Or.inl rfl, by decide,
    C9_cancelled_prompt_dead_snapshot sessEx 0 1 2 none (Or.inl rfl) (by decide)⟩

/-- Claim C10: the flatten operation draws every annotation in a fixed
export color independent of the stored color field: among the draw calls of
a completed export, every text draw call is yellow rgb(1,1,0) and every line
draw call is green rgb(0,1,0), so in particular an eraser stroke stored with
color "#FFFFFF" exports as green lines. -/
theorem C10_export_colors_fixed (doc : List PhysSize) (pages : List PageView)
    (annos : List Annot) (ops : List PdfOp) (op : PdfOp)
    (hok : savePdf1 doc pages annos = Except.ok ops) (hop : op ∈ ops) :
    (op.isText = true → op.color = rgb 1 1 0) ∧
    (op.isLine = true → op.color = rgb 0 1 0) := by
  induction annos generalizing ops with
  | nil =>
      simp only [savePdf1, Except.ok.injEq] at hok
      subst hok
      simp at hop
  | cons a rest ih =>
      simp only [savePdf1] at hok
      cases h1 : annoOps doc pages a with
      | error e =>
          rw [h1] at hok
          simp at hok
      | ok opsA =>
          rw [h1] at hok
          cases h2 : savePdf1 doc pages rest with
          | error e =>
              rw [h2] at hok
              simp at hok
          | ok more =>
              rw [h2] at hok
              simp only [Except.ok.injEq] at hok
              subst hok
              rcases List.mem_append.mp hop with hmem | hmem
              · unfold annoOps at h1
                split at h1
                · simp at h1
                · split at h1
                  · simp only [Except.ok.injEq] at h1
                    subst h1
                    simp at hmem
                  · split at h1
                    · simp only [Except.ok.injEq] at h1
                      subst h1
                      simp only [List.mem_singleton] at hmem
                      subst hmem
                      exact ⟨fun _ => rfl,
                        fun hl => by simp [PdfOp.isLine] at hl⟩
                    · simp only [Except.ok.injEq] at h1
                      subst h1
                      rcases List.mem_map.mp hmem with ⟨pq, hpq, hop2⟩
                      subst hop2
                      exact ⟨fun ht => by simp [PdfOp.isText] at ht,
                        fun _ => rfl⟩
              · exact ih more h2 hmem

/-- The witness export scenario: one page whose overlay pixel size equals
its physical size, holding a single white eraser stroke. -/
def docW : List PhysSize :=
  [⟨612, 792⟩]

def pvW : List PageView :=
  [⟨612, 792⟩]

def eraserW : Annot :=
  Annot.stroke 0 [⟨0, 0⟩, ⟨10, 10⟩] (some 2) (some "#FFFFFF")

def opW : PdfOp :=
  PdfOp.drawLine 0 ⟨0, 792⟩ ⟨10, 782⟩ 2 (rgb 0 1 0)

theorem C10_export_colors_fixed_witness :
    savePdf1 docW pvW [eraserW] = Except.ok [opW] ∧ opW ∈ [opW] ∧
    ((opW.isText = true → opW.color = rgb 1 1 0) ∧
     (opW.isLine = true → opW.color = rgb 0 1 0)) := by
  have hok : savePdf1 docW pvW [eraserW] = Except.ok [opW] := by
    norm_num [savePdf1, annoOps, consecPairs, toPhysicalStroke, scaleX,
      scaleY, jsOr, rgb, docW, pvW, eraserW, opW, Point.mk.injEq,
      Annot.pageIndex]
  exact ⟨hok, List.mem_singleton.mpr rfl,
    C10_export_colors_fixed docW pvW [eraserW] [opW] opW hok
      (List.mem_singleton.mpr rfl)⟩

end FreeKeel
